import Mathlib

/-!
# MCHestonHullWhiteEngine

A shallow embedding of `ql/pricingengines/vanilla/mchestonhullwhiteengine.hpp`:
the Monte Carlo vanilla engine for the hybrid Heston / Hull-White process, its
two path pricers and the analytic engine it uses as a control variate.

Conventions of the embedding.

* `Real`, `Time` and `DiscountFactor` values are rationals; `Size`, `BigNatural`
  and the serial number of a `Date` are naturals. None of the embedded
  functions does arithmetic on them: they are stored and forwarded.
* A `boost::shared_ptr<T>` that the source dereferences is a value of `T`.
* `QL_REQUIRE(c, msg)` is an early `Except.error`; the two messages of the
  header are the two constructors of `Error`.
* The members a method reads through `this->arguments_` are passed as an
  explicit `Arguments` value: the constructor of the engine does not touch
  them, the instrument fills them in before a method is called.
-/

namespace QuantLib

/-! ## Data model -/

/-- Serial number of a calendar date. -/
abbrev Date := Nat

/-- Year fraction. -/
abbrev Time := ℚ

/-- Discount factor. -/
abbrev DiscountFactor := ℚ

/-- Container size. -/
abbrev Size := Nat

/-- Seed type of the random number generators. -/
abbrev BigNatural := Nat

/-- The enumeration `Exercise::Type`. -/
inductive ExerciseType where
  | American
  | Bermudan
  | European
  deriving DecidableEq, Repr

/-- An `Exercise`: the two accessors the engine calls, `type()` and
`lastDate()`. -/
structure Exercise where
  type : ExerciseType
  lastDate : Date
  deriving DecidableEq, Repr

/-- A `Payoff`: a map from the terminal asset value to a cash amount. -/
structure Payoff where
  value : ℚ → ℚ

/-- A `YieldTermStructure`, seen through `discount(date)`. -/
structure YieldTermStructure where
  discount : Date → DiscountFactor

/-- A `HestonProcess`: its two curves and its parameters. The engine reads
`riskFreeRate()` only. -/
structure HestonProcess where
  riskFreeRate : YieldTermStructure
  dividendYield : YieldTermStructure
  s0 : ℚ
  v0 : ℚ
  kappa : ℚ
  theta : ℚ
  sigma : ℚ
  rho : ℚ

/-- A `HullWhiteForwardProcess`: its curve, mean reversion and volatility. -/
structure HullWhiteForwardProcess where
  curve : YieldTermStructure
  a : ℚ
  sigma : ℚ

/-- The dynamic type of a `shared_ptr<StochasticProcess>` held in the list of
constituents of a joint process. -/
inductive StochasticProcess where
  | heston (p : HestonProcess)
  | hullWhiteForward (p : HullWhiteForwardProcess)
  | generic (tag : Nat)

/-- The cast `boost::dynamic_pointer_cast<HestonProcess>`: the Heston process
when the pointee is one, the null pointer otherwise (and on a null pointer). -/
def dynamic_pointer_cast : Option StochasticProcess → Option HestonProcess
  | some (StochasticProcess.heston p) => some p
  | _ => none

/-- A `HybridHestonHullWhiteProcess`, seen through the two members the engine
calls: `time(date)` and `constituents()`. -/
structure HybridHestonHullWhiteProcess where
  time : Date → Time
  constituents : List StochasticProcess

/-- The members of `arguments_` the engine reads: `payoff` and `exercise`. -/
structure Arguments where
  payoff : Payoff
  exercise : Exercise

/-- The two failures the header can raise through `QL_REQUIRE`. -/
inductive Error where
  | unsupportedExercise
  | incompatibleSubProcess
  deriving DecidableEq, Repr

/-- The message carried by each failure, as written in the header. -/
def Error.what : Error → String
  | Error.unsupportedExercise => "only european exercise is supported"
  | Error.incompatibleSubProcess =>
      "first constituent of the joint stochastic process need to be of type HestonProcess"

/-- Modelled from the spec: the base sampling engine
`MCVanillaEngine<MultiVariate, RNG, S>` is declared in `mcvanillaengine.hpp`,
which is not part of the sources. It is represented by the ten arguments its
constructor receives, in call order: the process, the two time-step counts, the
Brownian-bridge flag, the antithetic-variate flag, the control-variate flag,
the required samples, the required tolerance, the maximum samples, the seed. -/
structure MCVanillaEngine where
  process : HybridHestonHullWhiteProcess
  timeSteps : Size
  timeStepsPerYear : Size
  brownianBridge : Bool
  antitheticVariate : Bool
  controlVariate : Bool
  requiredSamples : Size
  requiredTolerance : ℚ
  maxSamples : Size
  seed : BigNatural

/-- The engine as its constructor leaves it: the base sub-object and the
member `process_`. -/
structure MCHestonHullWhiteEngine where
  base_type : MCVanillaEngine
  process_ : HybridHestonHullWhiteProcess

/-- The class `HestonHullWhitePathPricer`: its three data members. -/
structure HestonHullWhitePathPricer where
  exerciseTime_ : Time
  payoff_ : Payoff
  process_ : HybridHestonHullWhiteProcess

/-- The class `HestonHullWhiteCVPathPricer`: its three data members. -/
structure HestonHullWhiteCVPathPricer where
  df_ : DiscountFactor
  payoff_ : Payoff
  process_ : HybridHestonHullWhiteProcess

/-- A `HestonModel`, built from a Heston process. -/
structure HestonModel where
  process : HestonProcess

/-- An `AnalyticHestonEngine`, built from a model and an integration order. -/
structure AnalyticHestonEngine where
  model : HestonModel
  integrationOrder : Size

/-! ## Operations -/

/-- The constructor of `MCHestonHullWhiteEngine`: the initialiser list calls the
base constructor with ten arguments and copies `process` into `process_`; the
body is empty. There is no `QL_REQUIRE` in it, so it returns `Except.ok`. The
checks the base constructor makes on its arguments are in `mcvanillaengine.hpp`,
outside the sources: the tuple is taken as one the base accepts. -/
def MCHestonHullWhiteEngine.create
    (process : HybridHestonHullWhiteProcess)
    (timeSteps : Size)
    (timeStepsPerYear : Size)
    (antitheticVariate : Bool)
    (controlVariate : Bool)
    (requiredSamples : Size)
    (requiredTolerance : ℚ)
    (maxSamples : Size)
    (seed : BigNatural) : Except Error MCHestonHullWhiteEngine :=
  Except.ok
    ⟨⟨process, timeSteps, timeStepsPerYear,
      false, antitheticVariate,
      controlVariate, requiredSamples,
      requiredTolerance, maxSamples, seed⟩,
     process⟩

/-- The method `pathPricer()`. -/
def MCHestonHullWhiteEngine.pathPricer (self : MCHestonHullWhiteEngine)
    (arguments_ : Arguments) : Except Error HestonHullWhitePathPricer :=
  let exercise := arguments_.exercise
  if exercise.type = ExerciseType.European then
    let exerciseTime := self.process_.time exercise.lastDate
    Except.ok ⟨exerciseTime, arguments_.payoff, self.process_⟩
  else
    Except.error Error.unsupportedExercise

/-- The method `controlPathPricer()`. Element 0 of `constituents()` is read
with `List.get?`: on an empty list, where the source reads out of bounds, the
model hands the cast a null pointer. -/
def MCHestonHullWhiteEngine.controlPathPricer (self : MCHestonHullWhiteEngine)
    (arguments_ : Arguments) : Except Error HestonHullWhiteCVPathPricer :=
  let exercise := arguments_.exercise
  if exercise.type = ExerciseType.European then
    match dynamic_pointer_cast (self.process_.constituents.get? 0) with
    | some hestonProcess =>
        Except.ok
          ⟨hestonProcess.riskFreeRate.discount exercise.lastDate,
           arguments_.payoff,
           self.process_⟩
    | none => Except.error Error.incompatibleSubProcess
  else
    Except.error Error.unsupportedExercise

/-- The method `controlPricingEngine()`. It does not read `arguments_`. -/
def MCHestonHullWhiteEngine.controlPricingEngine (self : MCHestonHullWhiteEngine) :
    Except Error AnalyticHestonEngine :=
  match dynamic_pointer_cast (self.process_.constituents.get? 0) with
  | some hestonProcess =>
      let model : HestonModel := ⟨hestonProcess⟩
      Except.ok ⟨model, 192⟩
  | none => Except.error Error.incompatibleSubProcess

/-- Modelled from the spec: the sample pair produced per path, the value of the
full-model valuator and the value of the reference-model valuator. The
accumulation step (`McSimulation`, `Statistics`) is not part of the sources. -/
structure SamplePair where
  fullModelValue : ℚ
  referenceModelValue : ℚ
  deriving DecidableEq, Repr

/-- Modelled from the spec: the full-model series of a run. -/
def fullModelSamples (pairs : List SamplePair) : List ℚ :=
  pairs.map (fun p => p.fullModelValue)

/-- Modelled from the spec: the reference-model series of a run. -/
def referenceModelSamples (pairs : List SamplePair) : List ℚ :=
  pairs.map (fun p => p.referenceModelValue)

/-- Modelled from the spec: the difference series, full-model value minus
reference-model value on each path. -/
def differenceSamples (pairs : List SamplePair) : List ℚ :=
  pairs.map (fun p => p.fullModelValue - p.referenceModelValue)

/-- Modelled from the spec: the mean reported by the statistics accumulator. -/
def mean (xs : List ℚ) : ℚ :=
  xs.sum / xs.length

/-- Modelled from the spec: the variance estimate of the statistics
accumulator, the unbiased sample variance. -/
def variance (xs : List ℚ) : ℚ :=
  (xs.map (fun x => (x - mean xs) ^ 2)).sum / (xs.length - 1)

/-- Modelled from the spec: the sample covariance of the full-model series and
the reference-model series. -/
def covariance (pairs : List SamplePair) : ℚ :=
  (pairs.map (fun p =>
      (p.fullModelValue - mean (fullModelSamples pairs)) *
      (p.referenceModelValue - mean (referenceModelSamples pairs)))).sum
    / (pairs.length - 1)

/-- Modelled from the spec: the square of the standard error of a series, its
variance estimate divided by the number of samples. The standard error itself
is the square root of this number. -/
def errorEstimateSquared (xs : List ℚ) : ℚ :=
  variance xs / xs.length

/-- Modelled from the spec: the control-variate combiner,
`finalPrice = mean(fullModelSamples) − mean(referenceModelSamples) +
analyticReferencePrice`. -/
def finalPrice (pairs : List SamplePair) (analyticReferencePrice : ℚ) : ℚ :=
  mean (fullModelSamples pairs) - mean (referenceModelSamples pairs)
    + analyticReferencePrice

/-! ## Fixtures -/

/-- A flat curve with discount factor `df` at every date. -/
def flatCurve (df : DiscountFactor) : YieldTermStructure :=
  ⟨fun _ => df⟩

/-- A Heston process on a flat risk-free curve with discount factor `df`. -/
def sampleHeston (df : DiscountFactor) : HestonProcess :=
  ⟨flatCurve df, flatCurve 1, 100, 4 / 100, 3 / 2, 4 / 100, 3 / 10, -1 / 2⟩

/-- A Hull-White forward process with volatility `sigma`. -/
def sampleHullWhite (sigma : ℚ) : HullWhiteForwardProcess :=
  ⟨flatCurve (49 / 50), 1 / 10, sigma⟩

/-- A hybrid process whose first constituent is a Heston process. -/
def hestonFirst (sigma : ℚ) : HybridHestonHullWhiteProcess :=
  ⟨fun d => (d : ℚ) / 365,
   [StochasticProcess.heston (sampleHeston (49 / 50)),
    StochasticProcess.hullWhiteForward (sampleHullWhite sigma)]⟩

/-- A joint process whose first constituent is not a Heston process. -/
def hullWhiteFirst : HybridHestonHullWhiteProcess :=
  ⟨fun d => (d : ℚ) / 365,
   [StochasticProcess.hullWhiteForward (sampleHullWhite (1 / 100)),
    StochasticProcess.heston (sampleHeston (49 / 50))]⟩

/-- A call payoff with strike 100. -/
def callPayoff : Payoff :=
  ⟨fun s => max (s - 100) 0⟩

/-- Option arguments with a European exercise at date 365. -/
def europeanArguments : Arguments :=
  ⟨callPayoff, ⟨ExerciseType.European, 365⟩⟩

/-- An engine on the process `hestonFirst`. -/
def hestonEngine (sigma : ℚ) : MCHestonHullWhiteEngine :=
  ⟨⟨hestonFirst sigma, 50, 0, false, true, true, 1000, 0, 10000, 42⟩,
   hestonFirst sigma⟩

/-- An engine on the process `hullWhiteFirst`. -/
def hullWhiteEngine : MCHestonHullWhiteEngine :=
  ⟨⟨hullWhiteFirst, 50, 0, false, true, true, 1000, 0, 10000, 42⟩,
   hullWhiteFirst⟩

/-- Two paths on which the reference value moves ten times as much as the
full-model value. -/
def steepReferencePairs : List SamplePair :=
  [⟨0, 0⟩, ⟨1, 10⟩]

/-- Two paths on which the reference value moves half as much as the
full-model value. -/
def flatReferencePairs : List SamplePair :=
  [⟨0, 0⟩, ⟨2, 1⟩]

/-- Three paths with equal full-model and reference values. -/
def equalPairs : List SamplePair :=
  [⟨3, 3⟩, ⟨-1, -1⟩, ⟨7 / 2, 7 / 2⟩]

/-! ## Auxiliary lemmas -/

/-- Element 0 of a non-empty list is its head. -/
theorem get?_zero_eq_head {α : Type} (l : List α) (h : l ≠ []) :
    l.get? 0 = some (l.head h) := by
  cases l with
  | nil => exact absurd rfl h
  | cons a t => rfl

/-- The cast succeeds exactly on a Heston process. -/
theorem dynamic_pointer_cast_eq_some (c : StochasticProcess) (hp : HestonProcess) :
    dynamic_pointer_cast (some c) = some hp ↔ c = StochasticProcess.heston hp := by
  cases c with
  | heston p =>
      constructor
      · intro h
        have h2 : p = hp := by simpa [dynamic_pointer_cast] using h
        rw [h2]
      · intro h
        have h2 : p = hp := by injection h
        simp [dynamic_pointer_cast, h2]
  | hullWhiteForward p => simp [dynamic_pointer_cast]
  | generic t => simp [dynamic_pointer_cast]

/-- The result of `controlPathPricer()` once the first constituent is known to
be the Heston process `hp` and the exercise is European. -/
theorem controlPathPricer_of_heston (self : MCHestonHullWhiteEngine)
    (arguments_ : Arguments) (hp : HestonProcess) (rest : List StochasticProcess)
    (hE : arguments_.exercise.type = ExerciseType.European)
    (hC : self.process_.constituents = StochasticProcess.heston hp :: rest) :
    self.controlPathPricer arguments_ =
      Except.ok ⟨hp.riskFreeRate.discount arguments_.exercise.lastDate,
                 arguments_.payoff, self.process_⟩ := by
  simp [MCHestonHullWhiteEngine.controlPathPricer, hE, hC, dynamic_pointer_cast]

/-- The result of `controlPricingEngine()` in terms of the cast of the head of
a non-empty list of constituents. -/
theorem controlPricingEngine_eq (self : MCHestonHullWhiteEngine)
    (h : self.process_.constituents ≠ []) :
    self.controlPricingEngine =
      match dynamic_pointer_cast (some (self.process_.constituents.head h)) with
      | some hestonProcess => Except.ok ⟨⟨hestonProcess⟩, 192⟩
      | none => Except.error Error.incompatibleSubProcess := by
  unfold MCHestonHullWhiteEngine.controlPricingEngine
  rw [get?_zero_eq_head _ h]

/-- The result of `controlPathPricer()` in terms of the cast of the head of a
non-empty list of constituents. -/
theorem controlPathPricer_eq (self : MCHestonHullWhiteEngine)
    (arguments_ : Arguments) (h : self.process_.constituents ≠ []) :
    self.controlPathPricer arguments_ =
      if arguments_.exercise.type = ExerciseType.European then
        match dynamic_pointer_cast (some (self.process_.constituents.head h)) with
        | some hestonProcess =>
            Except.ok
              ⟨hestonProcess.riskFreeRate.discount arguments_.exercise.lastDate,
               arguments_.payoff, self.process_⟩
        | none => Except.error Error.incompatibleSubProcess
      else Except.error Error.unsupportedExercise := by
  unfold MCHestonHullWhiteEngine.controlPathPricer
  rw [get?_zero_eq_head _ h]

/-! ## The path pricers and the control pricing engine -/

/-- C1: `pathPricer()` fails exactly when the exercise type is not European,
and the failure is then the one whose message is "only european exercise is
supported"; with a European exercise it returns a pricer whatever the
constituents of the process are, and it never raises the incompatible
sub-process failure. -/
theorem pathPricer_fails_iff_not_european (self : MCHestonHullWhiteEngine)
    (arguments_ : Arguments) :
    ((∃ e, self.pathPricer arguments_ = Except.error e)
        ↔ arguments_.exercise.type ≠ ExerciseType.European) ∧
    (self.pathPricer arguments_ = Except.error Error.unsupportedExercise
        ↔ arguments_.exercise.type ≠ ExerciseType.European) ∧
    ((∃ p, self.pathPricer arguments_ = Except.ok p)
        ↔ arguments_.exercise.type = ExerciseType.European) ∧
    self.pathPricer arguments_ ≠ Except.error Error.incompatibleSubProcess ∧
    Error.what Error.unsupportedExercise = "only european exercise is supported" := by
  by_cases hE : arguments_.exercise.type = ExerciseType.European
  · simp [MCHestonHullWhiteEngine.pathPricer, hE, Error.what]
  · simp [MCHestonHullWhiteEngine.pathPricer, hE, Error.what]

/-- C3: on a process with at least one constituent, `controlPathPricer()` fails
exactly when the exercise is not European or the first constituent is not a
Heston process; a European exercise with a non-Heston first constituent gives
the incompatible sub-process failure, and a non-European exercise gives the
unsupported-exercise failure whatever the first constituent is. -/
theorem controlPathPricer_fails_iff (self : MCHestonHullWhiteEngine)
    (arguments_ : Arguments) (h : self.process_.constituents ≠ []) :
    ((∃ e, self.controlPathPricer arguments_ = Except.error e)
        ↔ (arguments_.exercise.type ≠ ExerciseType.European ∨
           dynamic_pointer_cast (some (self.process_.constituents.head h)) = none)) ∧
    ((arguments_.exercise.type = ExerciseType.European ∧
        dynamic_pointer_cast (some (self.process_.constituents.head h)) = none)
        → self.controlPathPricer arguments_ = Except.error Error.incompatibleSubProcess) ∧
    (arguments_.exercise.type ≠ ExerciseType.European
        → self.controlPathPricer arguments_ = Except.error Error.unsupportedExercise) := by
  rw [controlPathPricer_eq self arguments_ h]
  by_cases hE : arguments_.exercise.type = ExerciseType.European
  · cases hD : dynamic_pointer_cast (some (self.process_.constituents.head h)) with
    | none => simp [hE]
    | some hp => simp [hE]
  · simp [hE]

/-- C4: on a process with at least one constituent, `controlPricingEngine()`
fails exactly when the first constituent is not a Heston process, the failure
is the incompatible sub-process one, and otherwise the result is the analytic
Heston engine of integration order 192 on the model built from that first
constituent. The method takes no option arguments, so the exercise type plays
no part. -/
theorem controlPricingEngine_fails_iff (self : MCHestonHullWhiteEngine)
    (h : self.process_.constituents ≠ []) :
    ((∃ e, self.controlPricingEngine = Except.error e)
        ↔ dynamic_pointer_cast (some (self.process_.constituents.head h)) = none) ∧
    (self.controlPricingEngine = Except.error Error.incompatibleSubProcess
        ↔ dynamic_pointer_cast (some (self.process_.constituents.head h)) = none) ∧
    (∀ hp : HestonProcess,
        self.process_.constituents.head h = StochasticProcess.heston hp →
        self.controlPricingEngine = Except.ok ⟨⟨hp⟩, 192⟩) := by
  rw [controlPricingEngine_eq self h]
  refine ⟨?_, ?_, ?_⟩
  · cases hD : dynamic_pointer_cast (some (self.process_.constituents.head h)) with
    | none => simp
    | some hp => simp
  · cases hD : dynamic_pointer_cast (some (self.process_.constituents.head h)) with
    | none => simp
    | some hp => simp
  · intro hp hH
    rw [(dynamic_pointer_cast_eq_some _ hp).mpr hH]

/-- C5: with a European exercise and a Heston process `hp` as first
constituent, `controlPathPricer()` returns a pricer whose discount factor is
the value of the risk-free curve of `hp` at the last exercise date; a second
engine with the same first constituent and a European exercise with the same
last date gets the same discount factor, whatever its other constituents, its
time map and its payoff are. -/
theorem controlPathPricer_discount_factor
    (self other : MCHestonHullWhiteEngine) (arguments_ otherArguments : Arguments)
    (hp : HestonProcess) (rest otherRest : List StochasticProcess)
    (hE : arguments_.exercise.type = ExerciseType.European)
    (hC : self.process_.constituents = StochasticProcess.heston hp :: rest)
    (hE2 : otherArguments.exercise.type = ExerciseType.European)
    (hD2 : otherArguments.exercise.lastDate = arguments_.exercise.lastDate)
    (hC2 : other.process_.constituents = StochasticProcess.heston hp :: otherRest) :
    ∃ p q,
      self.controlPathPricer arguments_ = Except.ok p ∧
      other.controlPathPricer otherArguments = Except.ok q ∧
      p.df_ = hp.riskFreeRate.discount arguments_.exercise.lastDate ∧
      q.df_ = p.df_ := by
  refine ⟨_, _, controlPathPricer_of_heston self arguments_ hp rest hE hC,
    controlPathPricer_of_heston other otherArguments hp otherRest hE2 hC2, rfl, ?_⟩
  simp [hD2]

/-- C6: with a European exercise and a Heston process as first constituent,
`pathPricer()` returns a pricer whose exercise time is the process time of the
last exercise date, and that pricer and the one returned by
`controlPathPricer()` hold the same payoff, the payoff of the option
arguments, and the same process, the process of the engine; the discount
factor of the second is read at the same last exercise date. -/
theorem pathPricer_and_controlPathPricer_share
    (self : MCHestonHullWhiteEngine) (arguments_ : Arguments)
    (hp : HestonProcess) (rest : List StochasticProcess)
    (hE : arguments_.exercise.type = ExerciseType.European)
    (hC : self.process_.constituents = StochasticProcess.heston hp :: rest) :
    ∃ p c,
      self.pathPricer arguments_ = Except.ok p ∧
      self.controlPathPricer arguments_ = Except.ok c ∧
      p.exerciseTime_ = self.process_.time arguments_.exercise.lastDate ∧
      c.df_ = hp.riskFreeRate.discount arguments_.exercise.lastDate ∧
      p.payoff_ = arguments_.payoff ∧ c.payoff_ = arguments_.payoff ∧
      p.process_ = self.process_ ∧ c.process_ = self.process_ ∧
      p.payoff_ = c.payoff_ ∧ p.process_ = c.process_ := by
  refine ⟨⟨self.process_.time arguments_.exercise.lastDate, arguments_.payoff,
      self.process_⟩, _, ?_,
    controlPathPricer_of_heston self arguments_ hp rest hE hC,
    rfl, rfl, rfl, rfl, rfl, rfl, rfl, rfl⟩
  simp [MCHestonHullWhiteEngine.pathPricer, hE]

/-- C9: the constructor hands the base engine the process, the two time-step
counts, the antithetic flag, the control-variate flag, the required samples,
the tolerance, the maximum samples and the seed, each unchanged and in its own
position, passes `false` as the Brownian-bridge flag, and stores the same
process in `process_`. -/
theorem create_forwards_arguments
    (process : HybridHestonHullWhiteProcess) (timeSteps timeStepsPerYear : Size)
    (antitheticVariate controlVariate : Bool) (requiredSamples : Size)
    (requiredTolerance : ℚ) (maxSamples : Size) (seed : BigNatural) :
    ∃ engine,
      MCHestonHullWhiteEngine.create process timeSteps timeStepsPerYear
        antitheticVariate controlVariate requiredSamples requiredTolerance
        maxSamples seed = Except.ok engine ∧
      engine.base_type.process = process ∧
      engine.base_type.timeSteps = timeSteps ∧
      engine.base_type.timeStepsPerYear = timeStepsPerYear ∧
      engine.base_type.brownianBridge = false ∧
      engine.base_type.antitheticVariate = antitheticVariate ∧
      engine.base_type.controlVariate = controlVariate ∧
      engine.base_type.requiredSamples = requiredSamples ∧
      engine.base_type.requiredTolerance = requiredTolerance ∧
      engine.base_type.maxSamples = maxSamples ∧
      engine.base_type.seed = seed ∧
      engine.process_ = process :=
  ⟨_, rfl, rfl, rfl, rfl, rfl, rfl, rfl, rfl, rfl, rfl, rfl, rfl⟩

/-- C10: on a process with at least one constituent, a success of
`controlPathPricer()` implies a success of `controlPricingEngine()`, a success
of `controlPricingEngine()` with a European exercise implies a success of
`controlPathPricer()`, and when both succeed the analytic model is built on the
first constituent and the discount factor of the pricer is read from the
risk-free curve of that same constituent. -/
theorem controlPathPricer_agrees_with_controlPricingEngine
    (self : MCHestonHullWhiteEngine) (arguments_ : Arguments)
    (h : self.process_.constituents ≠ []) :
    ((∃ c, self.controlPathPricer arguments_ = Except.ok c)
        → ∃ g, self.controlPricingEngine = Except.ok g) ∧
    (((∃ g, self.controlPricingEngine = Except.ok g) ∧
        arguments_.exercise.type = ExerciseType.European)
        → ∃ c, self.controlPathPricer arguments_ = Except.ok c) ∧
    (∀ c g, self.controlPathPricer arguments_ = Except.ok c →
        self.controlPricingEngine = Except.ok g →
        self.process_.constituents.head h = StochasticProcess.heston g.model.process ∧
        c.df_ = g.model.process.riskFreeRate.discount arguments_.exercise.lastDate) := by
  rw [controlPathPricer_eq self arguments_ h, controlPricingEngine_eq self h]
  cases hD : dynamic_pointer_cast (some (self.process_.constituents.head h)) with
  | none =>
      by_cases hE : arguments_.exercise.type = ExerciseType.European
      · simp [hE]
      · simp [hE]
  | some hp =>
      have hH := (dynamic_pointer_cast_eq_some _ hp).mp hD
      by_cases hE : arguments_.exercise.type = ExerciseType.European
      · refine ⟨fun _ => ⟨_, rfl⟩, fun _ => ?_, ?_⟩
        · simp [hE]
        · intro c g hc hg
          simp only [hE, if_true] at hc
          injection hc with hc
          injection hg with hg
          subst hc
          subst hg
          exact ⟨hH, rfl⟩
      · simp [hE]

/-- The statement of C3 at the engine whose first constituent is a Hull-White
process, with a European exercise. -/
theorem controlPathPricer_fails_iff_witness :
    ∃ h : hullWhiteEngine.process_.constituents ≠ [],
      dynamic_pointer_cast (some (hullWhiteEngine.process_.constituents.head h)) = none ∧
      hullWhiteEngine.controlPathPricer europeanArguments
        = Except.error Error.incompatibleSubProcess :=
  ⟨List.cons_ne_nil _ _, rfl,
    (controlPathPricer_fails_iff hullWhiteEngine europeanArguments
      (List.cons_ne_nil _ _)).2.1 ⟨rfl, rfl⟩⟩

/-- The statement of C4 at the engine whose first constituent is a Heston
process. -/
theorem controlPricingEngine_fails_iff_witness :
    ∃ _h : (hestonEngine (1 / 100)).process_.constituents ≠ [],
      (hestonEngine (1 / 100)).controlPricingEngine
        = Except.ok ⟨⟨sampleHeston (49 / 50)⟩, 192⟩ :=
  ⟨List.cons_ne_nil _ _,
    (controlPricingEngine_fails_iff (hestonEngine (1 / 100))
      (List.cons_ne_nil _ _)).2.2 (sampleHeston (49 / 50)) rfl⟩

/-- The statement of C5 at two engines that differ in the volatility of the
rate constituent only. -/
theorem controlPathPricer_discount_factor_witness :
    europeanArguments.exercise.type = ExerciseType.European ∧
    ∃ p q,
      (hestonEngine (1 / 100)).controlPathPricer europeanArguments = Except.ok p ∧
      (hestonEngine (1 / 5)).controlPathPricer europeanArguments = Except.ok q ∧
      p.df_ = (sampleHeston (49 / 50)).riskFreeRate.discount
                europeanArguments.exercise.lastDate ∧
      q.df_ = p.df_ :=
  ⟨rfl,
    controlPathPricer_discount_factor (hestonEngine (1 / 100)) (hestonEngine (1 / 5))
      europeanArguments europeanArguments (sampleHeston (49 / 50))
      [StochasticProcess.hullWhiteForward (sampleHullWhite (1 / 100))]
      [StochasticProcess.hullWhiteForward (sampleHullWhite (1 / 5))]
      rfl rfl rfl rfl rfl⟩

/-- The statement of C6 at the engine whose first constituent is a Heston
process, with a European exercise. -/
theorem pathPricer_and_controlPathPricer_share_witness :
    europeanArguments.exercise.type = ExerciseType.European ∧
    ∃ p c,
      (hestonEngine (1 / 100)).pathPricer europeanArguments = Except.ok p ∧
      (hestonEngine (1 / 100)).controlPathPricer europeanArguments = Except.ok c ∧
      p.exerciseTime_ = (hestonEngine (1 / 100)).process_.time
                          europeanArguments.exercise.lastDate ∧
      c.df_ = (sampleHeston (49 / 50)).riskFreeRate.discount
                europeanArguments.exercise.lastDate ∧
      p.payoff_ = europeanArguments.payoff ∧ c.payoff_ = europeanArguments.payoff ∧
      p.process_ = (hestonEngine (1 / 100)).process_ ∧
      c.process_ = (hestonEngine (1 / 100)).process_ ∧
      p.payoff_ = c.payoff_ ∧ p.process_ = c.process_ :=
  ⟨rfl,
    pathPricer_and_controlPathPricer_share (hestonEngine (1 / 100)) europeanArguments
      (sampleHeston (49 / 50))
      [StochasticProcess.hullWhiteForward (sampleHullWhite (1 / 100))] rfl rfl⟩

/-- The statement of C10 at the engine whose first constituent is a Heston
process, with a European exercise: both methods succeed. -/
theorem controlPathPricer_agrees_with_controlPricingEngine_witness :
    ∃ _h : (hestonEngine (1 / 100)).process_.constituents ≠ [],
      ∃ c, (hestonEngine (1 / 100)).controlPathPricer europeanArguments = Except.ok c :=
  ⟨List.cons_ne_nil _ _,
    (controlPathPricer_agrees_with_controlPricingEngine (hestonEngine (1 / 100))
      europeanArguments (List.cons_ne_nil _ _)).2.1 ⟨⟨_, rfl⟩, rfl⟩⟩

/-! ## The control-variate combination -/

/-- The three series of a run have the length of the run. -/
theorem length_series (pairs : List SamplePair) :
    (fullModelSamples pairs).length = pairs.length ∧
    (referenceModelSamples pairs).length = pairs.length ∧
    (differenceSamples pairs).length = pairs.length := by
  simp [fullModelSamples, referenceModelSamples, differenceSamples]

/-- The sum of the difference series is the difference of the sums. -/
theorem sum_differenceSamples (pairs : List SamplePair) :
    (differenceSamples pairs).sum
      = (fullModelSamples pairs).sum - (referenceModelSamples pairs).sum := by
  induction pairs with
  | nil => simp [differenceSamples, fullModelSamples, referenceModelSamples]
  | cons p t ih =>
      simp only [differenceSamples, fullModelSamples, referenceModelSamples,
        List.map_cons, List.sum_cons] at ih ⊢
      rw [ih]
      ring

/-- The mean of the difference series is the difference of the means. -/
theorem mean_differenceSamples (pairs : List SamplePair) :
    mean (differenceSamples pairs)
      = mean (fullModelSamples pairs) - mean (referenceModelSamples pairs) := by
  unfold mean
  rw [sum_differenceSamples, (length_series pairs).1, (length_series pairs).2.1,
    (length_series pairs).2.2, sub_div]

/-- Squared deviations of the differences, expanded term by term. -/
theorem sum_sq_deviation_difference (pairs : List SamplePair) (a b : ℚ) :
    (pairs.map (fun p => (p.fullModelValue - p.referenceModelValue - (a - b)) ^ 2)).sum
      = (pairs.map (fun p => (p.fullModelValue - a) ^ 2)).sum
        + (pairs.map (fun p => (p.referenceModelValue - b) ^ 2)).sum
        - 2 * (pairs.map (fun p =>
            (p.fullModelValue - a) * (p.referenceModelValue - b))).sum := by
  induction pairs with
  | nil => simp
  | cons p t ih =>
      simp only [List.map_cons, List.sum_cons]
      rw [ih]
      ring

/-- The variance of the difference series is the sum of the two variances less
twice the covariance. -/
theorem variance_differenceSamples (pairs : List SamplePair) :
    variance (differenceSamples pairs)
      = variance (fullModelSamples pairs) + variance (referenceModelSamples pairs)
        - 2 * covariance pairs := by
  unfold variance covariance
  rw [mean_differenceSamples, (length_series pairs).1, (length_series pairs).2.1,
    (length_series pairs).2.2]
  simp only [differenceSamples, fullModelSamples, referenceModelSamples, List.map_map,
    Function.comp_def]
  rw [sum_sq_deviation_difference]
  ring

/-- The variance estimate of a series is not negative. -/
theorem variance_nonneg (xs : List ℚ) (h : 1 ≤ xs.length) : 0 ≤ variance xs := by
  unfold variance
  apply div_nonneg
  · apply List.sum_nonneg
    intro x hx
    rw [List.mem_map] at hx
    obtain ⟨y, _, rfl⟩ := hx
    positivity
  · have h1 : (1 : ℚ) ≤ (xs.length : ℚ) := by exact_mod_cast h
    linarith

/-- C7: when the full-model value equals the reference-model value on every
path of a non-empty run, the combined estimate mean(full) − mean(reference) + a
is a, whatever the sampled values and the number of paths. -/
theorem finalPrice_eq_analytic_of_equal_samples (pairs : List SamplePair) (a : ℚ)
    (_hne : pairs ≠ [])
    (hEq : ∀ p ∈ pairs, p.fullModelValue = p.referenceModelValue) :
    finalPrice pairs a = a := by
  have hS : fullModelSamples pairs = referenceModelSamples pairs := by
    unfold fullModelSamples referenceModelSamples
    exact List.map_congr_left hEq
  unfold finalPrice
  rw [hS]
  ring

/-- The statement of C7 at a run of three paths. -/
theorem finalPrice_eq_analytic_of_equal_samples_witness :
    equalPairs ≠ [] ∧
    (∀ p ∈ equalPairs, p.fullModelValue = p.referenceModelValue) ∧
    finalPrice equalPairs (21 / 2) = 21 / 2 :=
  ⟨by decide, by simp [equalPairs],
    finalPrice_eq_analytic_of_equal_samples equalPairs (21 / 2) (by decide)
      (by simp [equalPairs])⟩

/-- C8 (as stated, refuted): on the run `steepReferencePairs` the two series
have correlation coefficient greater than zero, yet the standard error
derived from the difference series exceeds the standard error of the
full-model series. -/
theorem positive_correlation_does_not_bound_error :
    2 ≤ steepReferencePairs.length ∧
    0 < ((covariance steepReferencePairs : ℚ) : ℝ)
          / Real.sqrt (((variance (fullModelSamples steepReferencePairs) : ℚ) : ℝ)
              * ((variance (referenceModelSamples steepReferencePairs) : ℚ) : ℝ)) ∧
    ¬ (Real.sqrt ((errorEstimateSquared (differenceSamples steepReferencePairs) : ℚ) : ℝ)
        ≤ Real.sqrt ((errorEstimateSquared (fullModelSamples steepReferencePairs) : ℚ) : ℝ)) := by
  have hc : covariance steepReferencePairs = 5 := by
    norm_num [covariance, steepReferencePairs, fullModelSamples, referenceModelSamples, mean]
  have hx : variance (fullModelSamples steepReferencePairs) = 1 / 2 := by
    norm_num [variance, steepReferencePairs, fullModelSamples, mean]
  have hy : variance (referenceModelSamples steepReferencePairs) = 50 := by
    norm_num [variance, steepReferencePairs, referenceModelSamples, mean]
  have hd : errorEstimateSquared (differenceSamples steepReferencePairs) = 81 / 4 := by
    norm_num [errorEstimateSquared, variance, steepReferencePairs, differenceSamples, mean]
  have hf : errorEstimateSquared (fullModelSamples steepReferencePairs) = 1 / 4 := by
    norm_num [errorEstimateSquared, variance, steepReferencePairs, fullModelSamples, mean]
  refine ⟨by decide, ?_, ?_⟩
  · rw [hc, hx, hy]
    apply div_pos
    · norm_num
    · apply Real.sqrt_pos.mpr
      norm_num
  · rw [hd, hf, not_le]
    apply Real.sqrt_lt_sqrt
    · norm_num
    · norm_num

/-- C8 (amended): for a run of at least two paths, the standard error derived
from the variance of the difference series is at most the standard error of
the full-model series exactly when the variance of the reference-model series
is at most twice the covariance of the two series. -/
theorem control_variate_error_le_iff (pairs : List SamplePair)
    (h2 : 2 ≤ pairs.length) :
    Real.sqrt ((errorEstimateSquared (differenceSamples pairs) : ℚ) : ℝ)
        ≤ Real.sqrt ((errorEstimateSquared (fullModelSamples pairs) : ℚ) : ℝ)
      ↔ variance (referenceModelSamples pairs) ≤ 2 * covariance pairs := by
  have hn : (0 : ℚ) < (pairs.length : ℚ) := by
    have : 0 < pairs.length := by omega
    exact_mod_cast this
  have hfull : 0 ≤ errorEstimateSquared (fullModelSamples pairs) := by
    unfold errorEstimateSquared
    apply div_nonneg
    · apply variance_nonneg
      rw [(length_series pairs).1]
      omega
    · exact Nat.cast_nonneg _
  have hfullR : (0 : ℝ) ≤ ((errorEstimateSquared (fullModelSamples pairs) : ℚ) : ℝ) := by
    exact_mod_cast hfull
  rw [Real.sqrt_le_sqrt_iff hfullR, Rat.cast_le]
  unfold errorEstimateSquared
  rw [(length_series pairs).1, (length_series pairs).2.2, div_le_div_iff_of_pos_right hn,
    variance_differenceSamples]
  constructor <;> intro h <;> linarith

/-- The statement of the amended C8 at the run `flatReferencePairs`. -/
theorem control_variate_error_le_iff_witness :
    2 ≤ flatReferencePairs.length ∧
    Real.sqrt ((errorEstimateSquared (differenceSamples flatReferencePairs) : ℚ) : ℝ)
      ≤ Real.sqrt ((errorEstimateSquared (fullModelSamples flatReferencePairs) : ℚ) : ℝ) :=
  ⟨by decide,
    (control_variate_error_le_iff flatReferencePairs (by decide)).mpr (by
      norm_num [variance, covariance, flatReferencePairs, fullModelSamples,
        referenceModelSamples, mean])⟩

end QuantLib
